import Mathlib

/-!
Verification development for the DockerGraphBot repository.

The Python sources are shallowly embedded: the topology extractor
(`code/docker_info.py`, class `DockerInfo` and `ContainerInfos`) and the
graph builder (`code/build.py`, class `GraphBuilder`) become Lean
functions over explicit container-metadata values.  Python strings are
`String`, Python `dict` iteration order is an explicit association list,
Python `set` is `Finset String`, and Python exceptions are `Except PyErr`.
Regular-expression matching (`re.match`, `re.search`) is modelled with a
regex '.' standing for an arbitrary character, as in the source patterns.
-/

namespace DGB

/-- Index of the first occurrence of `pat` in a character list, as in
`str.find` / leftmost regex matching. -/
def firstIdxOf (pat : List Char) : List Char → Option Nat
  | [] => if pat = [] then some 0 else none
  | c :: rest =>
    if pat.isPrefixOf (c :: rest) then some 0
    else (firstIdxOf pat rest).map (· + 1)

/-- Python `s.replace(pat, '')`: remove every (leftmost, non-overlapping)
occurrence of `pat`.  Fuel-based recursion (each step consumes at least one
character, so `s.length` fuel always suffices). -/
def removeSubGo (pat : List Char) : Nat → List Char → List Char
  | _, [] => []
  | 0, l => l
  | fuel + 1, c :: rest =>
    if pat ≠ [] ∧ pat.isPrefixOf (c :: rest) then
      removeSubGo pat fuel (rest.drop (pat.length - 1))
    else c :: removeSubGo pat fuel rest

def removeSub (pat s : List Char) : List Char := removeSubGo pat s.length s

/-- Contiguous-subsequence (substring) test on character lists. -/
def containsSeq (pat : List Char) : List Char → Bool
  | [] => pat.isEmpty
  | c :: rest => pat.isPrefixOf (c :: rest) || containsSeq pat rest

/-- Python `pat in s` (substring test). -/
def pyContains (pat s : String) : Bool := containsSeq pat.data s.data

/-- Python `s.split(':')[0]`: the part of the string before the first colon. -/
def splitColonHead (s : String) : String :=
  (s.data.takeWhile (fun c => c ≠ ':')).asString

/-- Python `s.split(sep, 1)` when it yields exactly two parts; `none` when
`sep` does not occur (the list would then have a single element). -/
def pySplitOnce (sep s : String) : Option (String × String) :=
  match firstIdxOf sep.data s.data with
  | some i => some ((s.data.take i).asString, (s.data.drop (i + sep.data.length)).asString)
  | none => none

/-- Python `s.replace('Host:', '')`. -/
def removeHost (s : String) : String := (removeSub "Host:".data s.data).asString

/-- Python exceptions that the embedded extractor can raise. -/
inductive PyErr where
  | valueError
  | indexError
deriving DecidableEq

/-- Warnings logged by the extractor and the builder. -/
inductive Warning where
  | multipleTags (cont image : String)
  | noBackendPort (cont : String)
  | unknownMount (mtype : String)
  | multipleNetworks (cont network : String)
deriving DecidableEq

/-- One entry of `cont.attrs['Mounts']`. -/
structure Mount where
  mtype : String
  source : String
  volname : String
  destination : String
deriving DecidableEq

/-- Raw engine-side container metadata, as read by the extractor:
`cont.name`, `cont.status`, `cont.image.tags`,
`cont.attrs['NetworkSettings']['Ports']` (dict, insertion order),
`cont.labels` (dict, insertion order),
`cont.attrs['NetworkSettings']['Networks']` (network name to `Links`),
`cont.attrs['Mounts']`. -/
structure DockerContainer where
  name : String
  status : String
  tags : List String
  ports : List (String × Option (List String))
  labels : List (String × String)
  networks : List (String × Option (List String))
  mounts : List Mount
deriving DecidableEq

/-- `ContainerInfos` of `code/docker_info.py`: the normalized per-container
topology record. -/
structure ContainerInfos where
  name : String
  image : String
  ports : List (String × Finset String)
  networks : Finset String
  links : Finset String
  bind_mounts : List (String × Finset String)
  volumes : List (String × Finset String)
  backend_port : Option String
  url : Option String
deriving DecidableEq

def TRAEFIK_DEFAULT_PORT : String := "80/tcp"

/-- Python `dict.get(k)` over the label dict. -/
def labelsGet (labels : List (String × String)) (k : String) : Option String :=
  (labels.find? (fun p => p.1 == k)).map Prod.snd

/-- `defaultdict(set)` update: `m[k].update(xs)` (creates the key when absent,
keeping dict insertion order). -/
def ddUpdate (m : List (String × Finset String)) (k : String) (xs : List String) :
    List (String × Finset String) :=
  match m with
  | [] => [(k, xs.foldl (fun a x => insert x a) ∅)]
  | (k', v) :: rest =>
    if k' = k then (k', xs.foldl (fun a x => insert x a) v) :: rest
    else (k', v) :: ddUpdate rest k xs

/-- `defaultdict(set)` single add: `m[k].add(x)`. -/
def ddAdd (m : List (String × Finset String)) (k : String) (x : String) :
    List (String × Finset String) :=
  ddUpdate m k [x]

/-- One step of the exposed-to-host port accumulation loop:
`cont_info.ports[exposed_port].update(host ports or [])`. -/
def portStep (m : List (String × Finset String)) (p : String × Option (List String)) :
    List (String × Finset String) :=
  ddUpdate m p.1 (p.2.getD [])

/-- The exposed-to-host port accumulation loop of `update_containers`
(lines 145-150 of docker_info.py). -/
def foldPorts (ps : List (String × Option (List String))) : List (String × Finset String) :=
  ps.foldl portStep []

/-- `ContainerInfos.backend_port` setter (docker_info.py lines 61-70):
append `/tcp` when the value has no `/`. -/
def backend_port_set (value : Option String) : Option String :=
  match value with
  | none => none
  | some s => if s.data.contains '/' then some s else some (s ++ "/tcp")

/-- `ContainerInfos.url` setter (docker_info.py lines 77-87).  A value
containing `Path:` is split at `;Path:`; when `;Path:` is absent the
two-target unpacking raises `ValueError`. -/
def url_set (value : Option String) : Except PyErr (Option String) :=
  match value with
  | none => .ok none
  | some v =>
    if pyContains "Path:" v then
      match pySplitOnce ";Path:" v with
      | some (a, b) => .ok (some (removeHost a ++ b))
      | none => .error .valueError
    else .ok (some (removeHost v))

/-- Truthiness of `re.match('traefik.http.routers.*.rule', label)`, with
regex `.` standing for an arbitrary character. -/
def matchRouterRule (label : String) : Bool :=
  let l := label.data
  "traefik".data.isPrefixOf l &&
  "http".data.isPrefixOf (l.drop 8) &&
  "routers".data.isPrefixOf (l.drop 13) &&
  containsSeq "rule".data (l.drop 21)

/-- Scan for the tail `.loadbalancer.server.port` of the service-port
pattern at any position of the list. -/
def scanLBSP : List Char → Bool
  | [] => false
  | c :: rest =>
    ("loadbalancer".data.isPrefixOf (c :: rest) &&
     "server".data.isPrefixOf ((c :: rest).drop 13) &&
     "port".data.isPrefixOf ((c :: rest).drop 20)) ||
    scanLBSP rest

/-- Truthiness of
`re.match('traefik.http.services.*.loadbalancer.server.port', label)`. -/
def matchServicePort (label : String) : Bool :=
  let l := label.data
  "traefik".data.isPrefixOf l &&
  "http".data.isPrefixOf (l.drop 8) &&
  "services".data.isPrefixOf (l.drop 13) &&
  scanLBSP (l.drop 22)

/-- `re.search('Host\\(`(.*?)`\\)', value)` and its group 1: leftmost
occurrence of a backtick-delimited host, lazily closed. -/
def searchHostRule : List Char → Option (List Char)
  | [] => none
  | c :: rest =>
    if "Host(`".data.isPrefixOf (c :: rest) then
      match firstIdxOf "`)".data ((c :: rest).drop 6) with
      | some j => some (((c :: rest).drop 6).take j)
      | none => searchHostRule rest
    else searchHostRule rest

/-- The Traefik-v2 URL loop of `update_containers` (docker_info.py lines
155-162): for every label matching the router pattern, extract the host
from the rule value and assign it through the `url` setter. -/
def urlV2Loop : List (String × String) → Option String → Except PyErr (Option String)
  | [], u => .ok u
  | (label, value) :: rest, u =>
    if matchRouterRule label then
      match searchHostRule value.data with
      | some g =>
        match url_set (some g.asString) with
        | .error e => .error e
        | .ok u' => urlV2Loop rest u'
      | none => urlV2Loop rest u
    else urlV2Loop rest u

/-- URL discovery after the Traefik-v1 label attempt: the v2 loop runs only
when the url is still `None` (docker_info.py line 155). -/
def urlStage2 (labels : List (String × String)) (u0 : Option String) :
    Except PyErr (Option String) :=
  match u0 with
  | none => urlV2Loop labels none
  | some v => .ok (some v)

/-- The backend-port label loop of `update_containers` (docker_info.py lines
172-183): for EVERY label, assign either the label value (service-port
pattern match) or the default port, then warn if the stored port is `None`. -/
def backendLoop (cname : String) :
    List (String × String) → Option String → List Warning → Option String × List Warning
  | [], bp, ws => (bp, ws)
  | (label, value) :: rest, _, ws =>
    let bp' := if matchServicePort label then backend_port_set (some value)
               else backend_port_set (some TRAEFIK_DEFAULT_PORT)
    let ws' := if bp' = none then ws ++ [Warning.noBackendPort cname] else ws
    backendLoop cname rest bp' ws'

/-- Backend-port resolution (docker_info.py lines 167-185). -/
def resolveBackend (cname : String) (labels : List (String × String))
    (u : Option String) : Option String × List Warning :=
  match u with
  | none => (none, [])
  | some _ =>
    match labelsGet labels "traefik.port" with
    | some b => (backend_port_set (some b), [])
    | none => backendLoop cname labels none []

/-- Networks-and-links accumulation (docker_info.py lines 188-196). -/
def foldNetworks (nets : List (String × Option (List String))) :
    Finset String × Finset String :=
  nets.foldl
    (fun acc p =>
      let nets' := insert p.1 acc.1
      let links' := match p.2 with
        | none => acc.2
        | some ls => (ls.map splitColonHead).foldl (fun a x => insert x a) acc.2
      (nets', links'))
    (∅, ∅)

/-- Mount classification (docker_info.py lines 199-206). -/
def foldMounts (ms : List Mount) :
    List (String × Finset String) × List (String × Finset String) × List Warning :=
  ms.foldl
    (fun acc m =>
      if m.mtype = "bind" then (ddAdd acc.1 m.source m.destination, acc.2.1, acc.2.2)
      else if m.mtype = "volume" then (acc.1, ddAdd acc.2.1 m.volname m.destination, acc.2.2)
      else (acc.1, acc.2.1, acc.2.2 ++ [Warning.unknownMount m.mtype]))
    ([], [], [])

/-- Reverse-proxy detection (docker_info.py lines 208-215): first
colon-segment of the CHOSEN image (first tag) compared with `traefik`;
`list(cont_info.ports)[0]` raises `IndexError` on an empty port dict. -/
def traefikFacts (cname image : String) (ports : List (String × Finset String)) :
    Except PyErr (Option (String × String)) :=
  if splitColonHead image = "traefik" then
    match ports with
    | [] => .error .indexError
    | (p, _) :: _ => .ok (some (cname, p))
  else .ok none

/-- Processing of one listed container inside the `update_containers` loop
(docker_info.py lines 131-217), for a container that passed the
running-and-tagged filter.  Returns the built `ContainerInfos`, the warnings
logged, and the proxy facts recorded (if the container is the proxy). -/
def processContainer (cont : DockerContainer) :
    Except PyErr (ContainerInfos × List Warning × Option (String × String)) :=
  let image := cont.tags.headD ""
  let ws1 : List Warning :=
    if cont.tags.length > 1 then [Warning.multipleTags cont.name image] else []
  let ports := foldPorts cont.ports
  match url_set (labelsGet cont.labels "traefik.frontend.rule") with
  | .error e => .error e
  | .ok u0 =>
    match urlStage2 cont.labels u0 with
    | .error e => .error e
    | .ok u =>
      let bpw := resolveBackend cont.name cont.labels u
      let nl := foldNetworks cont.networks
      let mw := foldMounts cont.mounts
      match traefikFacts cont.name image ports with
      | .error e => .error e
      | .ok facts =>
        .ok (⟨cont.name, image, ports, nl.1, nl.2, mw.1, mw.2.1, bpw.1, u⟩,
             ws1 ++ bpw.2 ++ mw.2.2, facts)

/-- The running-and-tagged filter of the `update_containers` loop
(docker_info.py line 131).  Note: no exclusion-list test appears here. -/
def keep (cont : DockerContainer) : Bool :=
  cont.status == "running" && decide (0 < cont.tags.length)

/-- The `update_containers` loop over the engine's container list; a raised
exception aborts the whole pass. -/
def updateAux :
    List DockerContainer →
    Except PyErr (List (ContainerInfos × List Warning × Option (String × String)))
  | [] => .ok []
  | c :: rest =>
    if keep c then
      match processContainer c with
      | .error e => .error e
      | .ok r =>
        match updateAux rest with
        | .error e => .error e
        | .ok rs => .ok (r :: rs)
    else updateAux rest

/-- Result of a whole extraction pass: the `ContainerInfos` list, the
warnings, and the `traefik_container` / `traefik_source_port` members of
`DockerInfo` (empty strings when no proxy was found). -/
structure UpdateResult where
  containers : List ContainerInfos
  warnings : List Warning
  traefik_container : String
  traefik_source_port : String
deriving DecidableEq

/-- Packaging of the loop results into the `DockerInfo` state: the
containers in list order, warnings in order, and last-written proxy facts. -/
def packResults (rs : List (ContainerInfos × List Warning × Option (String × String))) :
    UpdateResult :=
  { containers := rs.map (·.1)
    warnings := (rs.map (·.2.1)).flatten
    traefik_container :=
      rs.foldl (fun t r => match r.2.2 with | some np => np.1 | none => t) ""
    traefik_source_port :=
      rs.foldl (fun t r => match r.2.2 with | some np => np.2 | none => t) "" }

/-- `DockerInfo.update_containers` (docker_info.py lines 119-218). -/
def update_containers (conts : List DockerContainer) : Except PyErr UpdateResult :=
  (updateAux conts).map packResults

/-- The per-container contribution to a successful extraction pass: the
processed result for kept (running, tagged) containers, nothing
otherwise. -/
def procOpt (c : DockerContainer) :
    Option (ContainerInfos × List Warning × Option (String × String)) :=
  if keep c then (processContainer c).toOption else none

namespace Build

def TRAEFIK_PORT : String := "80/tcp"

/-- `ContainerInfos` of `code/build.py` (lines 36-92): a single `network`
member instead of a set. -/
structure ContainerInfos where
  name : String
  image : String
  ports : List (String × Finset String)
  network : String
  links : Finset String
  backend_port : Option String
  url : Option String
deriving DecidableEq

/-- `ContainerInfos.url` setter of build.py (lines 87-92): only strips
`Host:`, never raises. -/
def url_set (value : Option String) : Option String := value.map removeHost

/-- One iteration of the networks loop of `GraphBuilder.__get_containers`
(build.py lines 459-467): `cont_info.network = network_name`, links
accumulate. -/
def netStepB (acc : String × Finset String) (p : String × Option (List String)) :
    String × Finset String :=
  let links' := match p.2 with
    | none => acc.2
    | some ls => (ls.map splitColonHead).foldl (fun a x => insert x a) acc.2
  (p.1, links')

/-- The networks loop of `GraphBuilder.__get_containers` (build.py lines
459-467): the `network` member is overwritten on each iteration (the last
network wins), links accumulate across all networks. -/
def foldNetworksB (nets : List (String × Option (List String))) :
    String × Finset String :=
  nets.foldl netStepB ("", ∅)

/-- Construction of one `ContainerInfos` by `GraphBuilder.__get_containers`
(build.py lines 409-477); `none` when the container is filtered out. -/
def get_container (exclude : List String) (cont : DockerContainer) :
    Option (ContainerInfos × List Warning) :=
  if cont.status == "running" && !(exclude.contains cont.name) &&
     decide (0 < cont.tags.length) then
    let image := cont.tags.headD ""
    let ws1 : List Warning :=
      if cont.tags.length > 1 then [Warning.multipleTags cont.name image] else []
    let ports := foldPorts cont.ports
    let u := url_set (labelsGet cont.labels "traefik.frontend.rule")
    let bpw : Option String × List Warning :=
      match u with
      | none => (none, [])
      | some _ =>
        match labelsGet cont.labels "traefik.port" with
        | none => (backend_port_set none, [])
        | some _ =>
          (backend_port_set (some TRAEFIK_PORT), [Warning.noBackendPort cont.name])
    let nl := foldNetworksB cont.networks
    let ws2 : List Warning :=
      if 1 < cont.networks.length then [Warning.multipleNetworks cont.name nl.1] else []
    some (⟨cont.name, image, ports, nl.1, nl.2, bpw.1, u⟩, ws1 ++ bpw.2 ++ ws2)
  else none

/-- `GraphBuilder.__get_containers` (build.py lines 399-486): the running
list plus the Traefik detection over ALL listed containers (any image tag
whose first colon-segment is `traefik`; last detection wins). -/
def get_containers (exclude : List String) (conts : List DockerContainer) :
    List ContainerInfos × List Warning × Option String :=
  (conts.filterMap (fun c => (get_container exclude c).map (·.1)),
   ((conts.filterMap (get_container exclude)).map (·.2)).flatten,
   conts.foldl
     (fun t c =>
       c.tags.foldl (fun t' i => if splitColonHead i = "traefik" then some c.name else t') t)
     none)

/-- `defaultdict(list)` append: `m[k].append(c)`. -/
def ddAppend (m : List (String × List ContainerInfos)) (k : String)
    (c : ContainerInfos) : List (String × List ContainerInfos) :=
  match m with
  | [] => [(k, [c])]
  | (k', v) :: rest =>
    if k' = k then (k', v ++ [c]) :: rest else (k', v) :: ddAppend rest k c

/-- The network grouping of `GraphBuilder.__add_containers_by_network`
(build.py lines 177-180): each container joins exactly the group of its
(single) `network` member. -/
def group_by_network (running : List ContainerInfos) :
    List (String × List ContainerInfos) :=
  running.foldl (fun m c => ddAppend m c.network c) []

/-- The containers drawn inside the cluster of network `k`. -/
def lookupGroup (m : List (String × List ContainerInfos)) (k : String) :
    List ContainerInfos :=
  ((m.find? (fun p => p.1 == k)).map Prod.snd).getD []

/-- `GraphBuilder.__node_name` (build.py lines 347-364): salt the natural
name with the host name, plus an optional record sub-name. -/
def node_name (host_name : String) (nm : String) (subname : Option String) :
    String :=
  let n := nm ++ "_" ++ host_name
  match subname with
  | none => n
  | some s => n ++ ":" ++ s

/-- Split a character list at the first occurrence of `c` (used to analyse
the identifiers produced by `node_name`). -/
def splitFirst (c : Char) : List Char → List Char × Option (List Char)
  | [] => ([], none)
  | x :: xs =>
    if x = c then ([], some xs)
    else
      let r := splitFirst c xs
      (x :: r.1, r.2)

/-- Split a character list at the last occurrence of `c`. -/
def splitLast (c : Char) : List Char → Option (List Char × List Char)
  | [] => none
  | x :: xs =>
    match splitLast c xs with
    | some r => some (x :: r.1, r.2)
    | none => if x = c then some ([], xs) else none

/-- Character-level form of the identifiers produced by `node_name`. -/
def encodeName (n h : List Char) (s : Option (List Char)) : List Char :=
  n ++ '_' :: (h ++ (match s with | none => [] | some t => ':' :: t))

/-- Recover the (name, host, subname) parts of a `node_name` identifier:
split at the first colon, then at the last underscore. -/
def decodeName (v : List Char) :
    Option (List Char × List Char × Option (List Char)) :=
  let fs := splitFirst ':' v
  (splitLast '_' fs.1).map (fun p => (p.1, p.2, fs.2))

end Build

/-- Enumerate a finite set of strings in sorted order (insertion sort lifted
to the underlying multiset; any permutation representative sorts to the same
list). -/
def finsetSorted (s : Finset String) : List String :=
  Quotient.lift (fun l : List String => l.insertionSort (· ≤ ·))
    (fun l1 l2 h =>
      List.eq_of_perm_of_sorted
        (((l1.perm_insertionSort (· ≤ ·)).trans h).trans
          (l2.perm_insertionSort (· ≤ ·)).symm)
        (List.sorted_insertionSort (· ≤ ·) l1)
        (List.sorted_insertionSort (· ≤ ·) l2))
    s.val

/-- Modelled from the spec: the Graph Builder step that attaches volume and
bind-mount nodes (spec section 4.2, construction step 3) is absent from the
sources — build.py only declares the `VOLUME` / `BIND_MOUNT` style variants
and `__build_graph` never draws mounts, while docker_info.py extracts
`bind_mounts` / `volumes`.  Following the spec's words, every mount of every
container yields a (source, destination, container-name) triple; bind mounts
and named volumes both carry a source key mapped to a set of destinations
(destination sets are enumerated in sorted order to fix a presentation
order). -/
def mountTriples (cs : List ContainerInfos) : List (String × String × String) :=
  cs.flatMap fun ci =>
    (ci.bind_mounts ++ ci.volumes).flatMap fun p =>
      (finsetSorted p.2).map fun d => (p.1, d, ci.name)

/-- Modelled from the spec: "each unique mount source becomes one node
(shared, drawn once even if mounted into several containers)". -/
def source_nodes (cs : List ContainerInfos) : List String :=
  ((mountTriples cs).map (fun t => t.1)).dedup

/-- Modelled from the spec: "each (destination, container) pair becomes one
node local to that container's cluster". -/
def mount_point_nodes (cs : List ContainerInfos) : List (String × String) :=
  ((mountTriples cs).map (fun t => (t.2.1, t.2.2))).dedup

/-- Modelled from the spec: one edge from each mount-point node to its
owning container. -/
def mount_edges_container (cs : List ContainerInfos) :
    List ((String × String) × String) :=
  (mount_point_nodes cs).map (fun p => (p, p.2))

/-- Modelled from the spec: one edge from each mount-point node to its
mount source. -/
def mount_edges_source (cs : List ContainerInfos) :
    List ((String × String) × String) :=
  (((mountTriples cs).map (fun t => ((t.2.1, t.2.2), t.1))).dedup)

/-! Concrete container metadata used to evaluate the embedded functions. -/

/-- A routed container carrying an explicit Traefik-v2 per-service
backend-port label followed by another label in dict order. -/
def c1_explicit : DockerContainer :=
  { name := "web", status := "running", tags := ["app:1"], ports := [],
    labels := [("traefik.http.services.app.loadbalancer.server.port", "8080"),
               ("traefik.frontend.rule", "Host:example.com")],
    networks := [], mounts := [] }

/-- A routed container with no backend-port label of either convention. -/
def c1_noport : DockerContainer :=
  { name := "web2", status := "running", tags := ["app:1"], ports := [],
    labels := [("traefik.frontend.rule", "Host:example.com")],
    networks := [], mounts := [] }

/-- A container whose frontend-rule label value holds `Path:` without a
preceding `;`. -/
def c3_cont : DockerContainer :=
  { name := "app", status := "running", tags := ["app:1"], ports := [],
    labels := [("traefik.frontend.rule", "Path:/admin")],
    networks := [], mounts := [] }

/-- A running, tagged container named `web` (the name placed on the
configuration's exclusion list). -/
def c5_cont : DockerContainer :=
  { name := "web", status := "running", tags := ["nginx:latest"], ports := [],
    labels := [], networks := [], mounts := [] }

/-- A container whose SECOND image tag is a `traefik` image. -/
def c6_cont : DockerContainer :=
  { name := "proxy2", status := "running", tags := ["app:1", "traefik:v2"],
    ports := [("80/tcp", none)], labels := [], networks := [], mounts := [] }

/-- A genuine proxy container: first tag `traefik:1`, one exposed port. -/
def c6w_cont : DockerContainer :=
  { name := "t", status := "running", tags := ["traefik:1"],
    ports := [("8081/tcp", none)], labels := [], networks := [], mounts := [] }

/-- A proxy container with an empty port mapping. -/
def c10_cont : DockerContainer :=
  { name := "proxy", status := "running", tags := ["traefik:v2"], ports := [],
    labels := [], networks := [], mounts := [] }

/-- A container attached to two networks, enumerated custom-first. -/
def c2_cont : DockerContainer :=
  { name := "multi", status := "running", tags := ["app:1"], ports := [],
    labels := [], networks := [("custom", none), ("default", none)],
    mounts := [] }

/-- Trivial running containers for permutation checks. -/
def c8a_cont : DockerContainer :=
  { name := "a", status := "running", tags := ["x:1"], ports := [],
    labels := [], networks := [], mounts := [] }

def c8b_cont : DockerContainer :=
  { name := "b", status := "running", tags := ["y:1"], ports := [],
    labels := [], networks := [], mounts := [] }

/-- Two extracted containers sharing the bind-mount source `/srv/data`. -/
def c4a_info : ContainerInfos :=
  ⟨"a", "img:1", [], ∅, ∅, [("/srv/data", {"/da"})], [], none, none⟩

def c4b_info : ContainerInfos :=
  ⟨"b", "img:1", [], ∅, ∅, [("/srv/data", {"/db"})], [], none, none⟩

end DGB

/-! ## Theorems -/

namespace DGB

/-- C7: every value assigned through the `backend_port` setter is stored
with a transport suffix: `"8080"` becomes `"8080/tcp"`, `"8080/udp"` is kept
unchanged, `None` is stored as `None`, and every stored string contains a
`/` separator. -/
theorem backend_port_transport_suffix :
    backend_port_set (some "8080") = some "8080/tcp" ∧
    backend_port_set (some "8080/udp") = some "8080/udp" ∧
    backend_port_set none = none ∧
    ∀ s : String, ∃ t : String, backend_port_set (some s) = some t ∧ '/' ∈ t.data := by
  refine ⟨rfl, rfl, rfl, fun s => ?_⟩
  by_cases h : '/' ∈ s.data
  · have hb : s.data.contains '/' = true := by simpa using h
    exact ⟨s, by simp only [backend_port_set]; rw [if_pos hb], h⟩
  · have hb : ¬ s.data.contains '/' = true := by simpa using h
    refine ⟨s ++ "/tcp", by simp only [backend_port_set]; rw [if_neg hb], ?_⟩
    have hd : (s ++ "/tcp").data = s.data ++ "/tcp".data := rfl
    rw [hd]
    exact List.mem_append_right _ (by decide)

/-- C3: refuted by evaluation — a frontend-rule label value containing
`Path:` not preceded by `;` makes `update_containers` raise `ValueError`
(the two-target unpacking of `value.split(';Path:', 1)` fails), aborting the
whole extraction pass instead of degrading with a warning. -/
theorem malformed_rule_aborts_extraction :
    update_containers [c3_cont] = .error .valueError := rfl

/-- C1: refuted by evaluation — with an explicit per-service backend-port
label (`8080`) present but followed by another label in dict order, the
final stored `backend_port` is the default `80/tcp`, not `8080/tcp`; and in
the no-explicit-label case the default is stored but the promised warning is
never emitted (the warning list is empty in both runs). -/
theorem backend_port_label_overwritten :
    (update_containers [c1_explicit]).map (fun r => r.containers.map (·.backend_port))
      = .ok [some "80/tcp"] ∧
    (update_containers [c1_explicit]).map (fun r => r.warnings) = .ok [] ∧
    (update_containers [c1_noport]).map (fun r => r.containers.map (·.backend_port))
      = .ok [some "80/tcp"] ∧
    (update_containers [c1_noport]).map (fun r => r.warnings) = .ok [] ∧
    (some "80/tcp" : Option String) ≠ some "8080/tcp" :=
  ⟨rfl, rfl, rfl, rfl, by decide⟩

/-- C5: refuted by evaluation — `DockerInfo.update_containers` takes no
exclusion list at all, so the running, tagged container named `web` appears
in the extraction result even though the configuration excludes `web`. -/
theorem excluded_container_still_extracted :
    ("web" ∈ (["web"] : List String)) ∧
    (update_containers [c5_cont]).map (fun r => r.containers.map (·.name))
      = .ok ["web"] :=
  ⟨by decide, rfl⟩

end DGB

namespace DGB

/-- `containsSeq` decides the contiguous-substring relation. -/
theorem containsSeq_correct (pat : List Char) :
    ∀ s : List Char, containsSeq pat s = true ↔ pat <:+: s := by
  intro s
  induction s with
  | nil =>
    simp [containsSeq, List.isEmpty_iff, List.infix_nil]
  | cons c rest ih =>
    simp only [containsSeq, Bool.or_eq_true, List.isPrefixOf_iff_prefix, ih,
      List.infix_cons_iff]

/-- The group extracted by the `Host` rule search is a substring of the
searched value. -/
theorem searchHostRule_sub :
    ∀ s g : List Char, searchHostRule s = some g → g <:+: s := by
  intro s
  induction s with
  | nil => intro g h; simp [searchHostRule] at h
  | cons c rest ih =>
    intro g h
    rw [searchHostRule] at h
    by_cases hp : "Host(`".data.isPrefixOf (c :: rest) = true
    · rw [if_pos hp] at h
      cases hf : firstIdxOf "`)".data ((c :: rest).drop 6) with
      | some j =>
        rw [hf] at h
        injection h with h
        subst h
        exact ((List.take_prefix _ _).isInfix.trans (List.drop_suffix _ _).isInfix)
      | none =>
        rw [hf] at h
        exact (ih g h).trans (List.suffix_cons c rest).isInfix
    · rw [if_neg hp] at h
      exact (ih g h).trans (List.suffix_cons c rest).isInfix

/-- The `url` setter succeeds on any value free of `Path:`. -/
theorem url_set_ok_of_noPath {v : String} (h : pyContains "Path:" v = false) :
    url_set (some v) = .ok (some (removeHost v)) := by
  simp only [url_set]
  rw [if_neg (by simp [h])]

/-- The first url assignment (from the v1 frontend-rule label) succeeds when
no label value contains `Path:`. -/
theorem url_set_labelsGet_ok (labels : List (String × String)) (k : String)
    (hl : ∀ p ∈ labels, pyContains "Path:" p.2 = false) :
    ∃ u, url_set (labelsGet labels k) = .ok u := by
  cases hfind : labels.find? (fun p => p.1 == k) with
  | none => exact ⟨none, by simp [labelsGet, hfind, url_set]⟩
  | some p =>
    have hmem : p ∈ labels := List.mem_of_find?_eq_some hfind
    refine ⟨some (removeHost p.2), ?_⟩
    have : labelsGet labels k = some p.2 := by simp [labelsGet, hfind]
    rw [this, url_set_ok_of_noPath (hl p hmem)]

/-- The Traefik-v2 url loop never raises when no label value contains
`Path:`. -/
theorem urlV2Loop_ok (labels : List (String × String))
    (hl : ∀ p ∈ labels, pyContains "Path:" p.2 = false) :
    ∀ u, ∃ u', urlV2Loop labels u = .ok u' := by
  induction labels with
  | nil => exact fun u => ⟨u, rfl⟩
  | cons lv rest ih =>
    intro u
    have hrest : ∀ p ∈ rest, pyContains "Path:" p.2 = false :=
      fun p hp => hl p (List.mem_cons_of_mem _ hp)
    have hhead : pyContains "Path:" lv.2 = false := hl lv (List.mem_cons_self _ _)
    rw [urlV2Loop]
    by_cases hm : matchRouterRule lv.1 = true
    · rw [if_pos hm]
      cases hs : searchHostRule lv.2.data with
      | some g =>
        have hginf : g <:+: lv.2.data := searchHostRule_sub _ _ hs
        have hg : pyContains "Path:" g.asString = false := by
          by_contra hcon
          have hg' : containsSeq "Path:".data g = true := by
            simpa [pyContains] using Bool.of_not_eq_false hcon
          have : containsSeq "Path:".data lv.2.data = true :=
            (containsSeq_correct _ _).mpr
              (((containsSeq_correct _ _).mp hg').trans hginf)
          simp [pyContains, this] at hhead
        simp only [hs, url_set_ok_of_noPath hg]
        exact ih hrest _
      | none => exact ih hrest u
    · rw [if_neg hm]
      exact ih hrest u

/-- C10: a container identified as the reverse proxy (first colon-segment of
its chosen image tag is `traefik`) whose port mapping is empty makes
`update_containers` raise `IndexError` at `list(cont_info.ports)[0]`,
aborting the whole pass (no warning, no recovery). -/
theorem portless_proxy_raises_indexerror (c : DockerContainer)
    (hs : c.status = "running") (ht : c.tags ≠ [])
    (htr : splitColonHead (c.tags.headD "") = "traefik")
    (hp : c.ports = [])
    (hl : ∀ p ∈ c.labels, pyContains "Path:" p.2 = false) :
    update_containers [c] = .error .indexError := by
  obtain ⟨u0, h0⟩ := url_set_labelsGet_ok c.labels "traefik.frontend.rule" hl
  have h1 : ∃ u, urlStage2 c.labels u0 = .ok u := by
    cases u0 with
    | none => exact urlV2Loop_ok c.labels hl none
    | some v => exact ⟨some v, rfl⟩
  obtain ⟨u, h1⟩ := h1
  have hfacts : traefikFacts c.name (c.tags.headD "") (foldPorts c.ports)
      = .error .indexError := by
    rw [hp]
    simp only [traefikFacts]
    rw [if_pos htr]
    rfl
  have hproc : processContainer c = .error .indexError := by
    simp only [processContainer, h0, h1, hfacts]
  have hkeep : keep c = true := by
    simp [keep, hs, List.length_pos, ht]
  simp [update_containers, updateAux, hkeep, hproc, Except.map]

/-- Witness: a concrete running `traefik:v2` container with an empty port
mapping aborts extraction with `IndexError`. -/
theorem portless_proxy_raises_indexerror_witness :
    update_containers [c10_cont] = .error .indexError :=
  portless_proxy_raises_indexerror c10_cont rfl (by decide) rfl rfl (by decide)

end DGB

namespace DGB

/-- A `defaultdict` update leaves the key sequence unchanged when the key is
present, and appends it otherwise. -/
theorem ddUpdate_keys (m : List (String × Finset String)) (k : String)
    (xs : List String) :
    (ddUpdate m k xs).map Prod.fst =
      if k ∈ m.map Prod.fst then m.map Prod.fst else m.map Prod.fst ++ [k] := by
  induction m with
  | nil => simp [ddUpdate]
  | cons p rest ih =>
    obtain ⟨k', v⟩ := p
    by_cases h : k' = k
    · subst h; simp [ddUpdate]
    · have hk : ¬ k = k' := fun e => h e.symm
      simp only [ddUpdate, if_neg h, List.map_cons, ih]
      by_cases hm : k ∈ rest.map Prod.fst
      · simp [hm, List.mem_cons, hk]
      · simp [hm, List.mem_cons, hk]

/-- The port-accumulation fold preserves the first key of a non-empty
accumulator and never empties it. -/
theorem foldl_portStep_head (ps : List (String × Option (List String))) :
    ∀ m : List (String × Finset String), m ≠ [] →
      ((ps.foldl portStep m).map Prod.fst).headD "" = (m.map Prod.fst).headD "" ∧
      ps.foldl portStep m ≠ [] := by
  induction ps with
  | nil => exact fun m hm => ⟨rfl, hm⟩
  | cons p rest ih =>
    intro m hm
    have hmapne : m.map Prod.fst ≠ [] := by
      intro hcon; exact hm (List.map_eq_nil_iff.mp hcon)
    have hkeys := ddUpdate_keys m p.1 (p.2.getD [])
    have hne : ddUpdate m p.1 (p.2.getD []) ≠ [] := by
      intro hcon
      have hmap := congrArg (List.map Prod.fst) hcon
      rw [hkeys] at hmap
      by_cases hmem : p.1 ∈ m.map Prod.fst
      · rw [if_pos hmem] at hmap; exact hmapne hmap
      · rw [if_neg hmem] at hmap; simp at hmap
    have hhead : ((ddUpdate m p.1 (p.2.getD [])).map Prod.fst).headD ""
        = (m.map Prod.fst).headD "" := by
      rw [hkeys]
      by_cases hmem : p.1 ∈ m.map Prod.fst
      · rw [if_pos hmem]
      · rw [if_neg hmem]
        cases hm' : m.map Prod.fst with
        | nil => exact absurd hm' hmapne
        | cons a t => simp
    obtain ⟨ih1, ih2⟩ := ih (portStep m p) hne
    exact ⟨ih1.trans hhead, ih2⟩

/-- The first key of the accumulated port dict is the first exposed port of
the raw metadata. -/
theorem foldPorts_keys_head (ps : List (String × Option (List String))) :
    ((foldPorts ps).map Prod.fst).headD "" = (ps.map Prod.fst).headD "" := by
  cases ps with
  | nil => rfl
  | cons p rest =>
    have hstep : portStep [] p = [(p.1, (p.2.getD []).foldl (fun a x => insert x a) ∅)] := rfl
    have hne : portStep [] p ≠ [] := by rw [hstep]; simp
    have h := foldl_portStep_head rest (portStep [] p) hne
    have : foldPorts (p :: rest) = rest.foldl portStep (portStep [] p) := rfl
    rw [this, h.1, hstep]
    rfl

/-- A successful `processContainer` run records exactly the proxy facts
computed by `traefikFacts` on the chosen image and accumulated ports. -/
theorem processContainer_ok_facts (c : DockerContainer)
    (pr : ContainerInfos × List Warning × Option (String × String))
    (h : processContainer c = .ok pr) :
    traefikFacts c.name (c.tags.headD "") (foldPorts c.ports) = .ok pr.2.2 := by
  simp only [processContainer] at h
  cases h0 : url_set (labelsGet c.labels "traefik.frontend.rule") with
  | error e => simp only [h0] at h; exact absurd h (by simp)
  | ok u0 =>
    simp only [h0] at h
    cases h1 : urlStage2 c.labels u0 with
    | error e => simp only [h1] at h; exact absurd h (by simp)
    | ok u =>
      simp only [h1] at h
      cases h2 : traefikFacts c.name (c.tags.headD "") (foldPorts c.ports) with
      | error e => simp only [h2] at h; exact absurd h (by simp)
      | ok facts =>
        simp only [h2] at h
        injection h with h3
        rw [← h3]

/-- Characterization of a successful single-container extraction pass. -/
theorem update_containers_singleton (c : DockerContainer) (r : UpdateResult)
    (h : update_containers [c] = .ok r) :
    (keep c = false ∧ r = packResults []) ∨
    (keep c = true ∧ ∃ pr, processContainer c = .ok pr ∧ r = packResults [pr]) := by
  simp only [update_containers, updateAux] at h
  by_cases hk : keep c = true
  · right
    refine ⟨hk, ?_⟩
    rw [if_pos hk] at h
    cases hp : processContainer c with
    | error e => simp [hp, Except.map] at h
    | ok pr =>
      simp only [hp, Except.map] at h
      injection h with h'
      exact ⟨pr, rfl, h'.symm⟩
  · left
    rw [if_neg hk] at h
    simp only [Except.map] at h
    injection h with h'
    exact ⟨by simpa using hk, h'.symm⟩

/-- C6 counterexample: a running container whose SECOND image tag has first
colon-segment `traefik` satisfies the claim's any-tag condition, yet the
extractor does not record it as the proxy (the chosen image is the first
tag, and only the first tag is tested). -/
theorem proxy_second_tag_not_detected :
    (∃ t ∈ c6_cont.tags, splitColonHead t = "traefik") ∧
    (update_containers [c6_cont]).map (fun r => r.traefik_container) = .ok "" ∧
    c6_cont.name = "proxy2" ∧ ("" : String) ≠ "proxy2" :=
  ⟨⟨"traefik:v2", by decide, rfl⟩, rfl, rfl, by decide⟩

/-- C6 amended: a container is recorded as the reverse proxy if and only if
it is running, has at least one image tag, and the first colon-segment of
its FIRST (chosen) image tag equals `traefik`; in that case `HostFacts`
records its name and its first exposed-port specifier. -/
theorem proxy_detection_first_tag (c : DockerContainer) (r : UpdateResult)
    (hn : c.name ≠ "") (h : update_containers [c] = .ok r) :
    (r.traefik_container = c.name ↔
      c.status = "running" ∧ c.tags ≠ [] ∧ splitColonHead (c.tags.headD "") = "traefik") ∧
    (r.traefik_container = c.name →
      r.traefik_source_port = (c.ports.map Prod.fst).headD "") := by
  rcases update_containers_singleton c r h with ⟨hk, hr⟩ | ⟨hk, pr, hpr, hr⟩
  · subst hr
    have htc : (packResults []).traefik_container = "" := rfl
    constructor
    · rw [htc]
      constructor
      · intro he; exact absurd he.symm hn
      · rintro ⟨hs, ht, -⟩
        have hkt : keep c = true := by simp [keep, hs, List.length_pos, ht]
        rw [hkt] at hk
        exact absurd hk (by simp)
    · rw [htc]; intro he; exact absurd he.symm hn
  · subst hr
    have hfacts := processContainer_ok_facts c pr hpr
    have hk' : c.status = "running" ∧ 0 < c.tags.length := by
      simpa [keep] using hk
    have hs : c.status = "running" := hk'.1
    have ht : c.tags ≠ [] := List.ne_nil_of_length_pos hk'.2
    have htc : (packResults [pr]).traefik_container =
        (match pr.2.2 with | some np => np.1 | none => "") := rfl
    have htp : (packResults [pr]).traefik_source_port =
        (match pr.2.2 with | some np => np.2 | none => "") := rfl
    by_cases htr : splitColonHead (c.tags.headD "") = "traefik"
    · simp only [traefikFacts] at hfacts
      rw [if_pos htr] at hfacts
      cases hfold : foldPorts c.ports with
      | nil => rw [hfold] at hfacts; exact absurd hfacts (by simp)
      | cons pv tl =>
        rw [hfold] at hfacts
        have hf2 : pr.2.2 = some (c.name, pv.1) := by
          injection hfacts with h'; exact h'.symm
        constructor
        · rw [htc, hf2]
          constructor
          · intro _; exact ⟨hs, ht, htr⟩
          · intro _; rfl
        · intro _
          rw [htp, hf2]
          have hkeys := foldPorts_keys_head c.ports
          rw [hfold] at hkeys
          exact hkeys
    · simp only [traefikFacts] at hfacts
      rw [if_neg htr] at hfacts
      have hf2 : pr.2.2 = none := by injection hfacts with h'; exact h'.symm
      rw [htc, hf2]
      constructor
      · simp only []
        constructor
        · intro he; exact absurd he.symm hn
        · rintro ⟨-, -, habs⟩; exact absurd habs htr
      · intro he; exact absurd he.symm hn

/-- Witness: a running container with first tag `traefik:1` and first
exposed port `8081/tcp` is recorded as the proxy with that ingress port. -/
theorem proxy_detection_first_tag_witness :
    ∃ r, update_containers [c6w_cont] = .ok r ∧ r.traefik_container = "t" ∧
      r.traefik_source_port = "8081/tcp" := by
  obtain ⟨r, hr⟩ : ∃ r, update_containers [c6w_cont] = .ok r := ⟨_, rfl⟩
  obtain ⟨hiff, hport⟩ := proxy_detection_first_tag c6w_cont r (by decide) hr
  have htc : r.traefik_container = "t" := hiff.mpr ⟨rfl, by decide, rfl⟩
  exact ⟨r, hr, htc, (hport htc).trans rfl⟩

end DGB

namespace DGB

/-- A successful extraction loop run means every kept container processed
without an exception, and the results are exactly the kept containers'
processed values in order. -/
theorem updateAux_ok (l : List DockerContainer)
    (rs : List (ContainerInfos × List Warning × Option (String × String)))
    (h : updateAux l = .ok rs) :
    (∀ c ∈ l, keep c = true → ∃ y, processContainer c = .ok y) ∧
    rs = l.filterMap procOpt := by
  induction l generalizing rs with
  | nil =>
    simp only [updateAux] at h
    injection h with h'
    exact ⟨by simp, by simp [h'.symm]⟩
  | cons c rest ih =>
    simp only [updateAux] at h
    by_cases hk : keep c = true
    · rw [if_pos hk] at h
      cases hp : processContainer c with
      | error e => rw [hp] at h; exact absurd h (by simp)
      | ok y =>
        rw [hp] at h
        cases ha : updateAux rest with
        | error e => rw [ha] at h; exact absurd h (by simp)
        | ok rs' =>
          rw [ha] at h
          injection h with h'
          obtain ⟨ih1, ih2⟩ := ih rs' ha
          refine ⟨?_, ?_⟩
          · intro d hd hkd
            rcases List.mem_cons.mp hd with rfl | hd'
            · exact ⟨y, hp⟩
            · exact ih1 d hd' hkd
          · rw [← h']
            simp [List.filterMap_cons, procOpt, hk, hp, ih2, Except.toOption]
    · rw [if_neg hk] at h
      obtain ⟨ih1, ih2⟩ := ih rs h
      refine ⟨?_, ?_⟩
      · intro d hd hkd
        rcases List.mem_cons.mp hd with rfl | hd'
        · exact absurd hkd hk
        · exact ih1 d hd' hkd
      · rw [ih2]
        simp [List.filterMap_cons, procOpt, hk]

/-- When every kept container processes without an exception, the loop
succeeds and returns exactly the kept containers' processed values. -/
theorem updateAux_ok_of_all (l : List DockerContainer)
    (hall : ∀ c ∈ l, keep c = true → ∃ y, processContainer c = .ok y) :
    updateAux l = .ok (l.filterMap procOpt) := by
  induction l with
  | nil => rfl
  | cons c rest ih =>
    have hrest : ∀ d ∈ rest, keep d = true → ∃ y, processContainer d = .ok y :=
      fun d hd => hall d (List.mem_cons_of_mem _ hd)
    simp only [updateAux]
    by_cases hk : keep c = true
    · obtain ⟨y, hy⟩ := hall c (List.mem_cons_self _ _) hk
      rw [if_pos hk]
      simp only [hy, ih hrest]
      simp [List.filterMap_cons, procOpt, hk, hy, Except.toOption]
    · rw [if_neg hk, ih hrest]
      simp [List.filterMap_cons, procOpt, hk]

/-- C8: extraction is enumeration-order independent — running the extractor
on any permutation of the same container metadata yields a permutation of
the same `ContainerInfos` entities (hence the same set, with identical
fields entity by entity, the set-valued fields being `Finset`s). -/
theorem extraction_order_independent (l1 l2 : List DockerContainer)
    (r1 : UpdateResult) (hperm : l1.Perm l2)
    (h1 : update_containers l1 = .ok r1) :
    ∃ r2, update_containers l2 = .ok r2 ∧ r1.containers.Perm r2.containers := by
  obtain ⟨rs1, hrs1, hr1⟩ : ∃ rs1, updateAux l1 = .ok rs1 ∧ r1 = packResults rs1 := by
    cases hu : updateAux l1 with
    | error e =>
      rw [update_containers, hu] at h1
      exact absurd h1 (by simp [Except.map])
    | ok rs =>
      rw [update_containers, hu] at h1
      injection h1 with h'
      exact ⟨rs, rfl, h'.symm⟩
  obtain ⟨hall1, hfm1⟩ := updateAux_ok l1 rs1 hrs1
  have hall2 : ∀ c ∈ l2, keep c = true → ∃ y, processContainer c = .ok y :=
    fun c hc => hall1 c (hperm.mem_iff.mpr hc)
  have h2 := updateAux_ok_of_all l2 hall2
  refine ⟨packResults (l2.filterMap procOpt), ?_, ?_⟩
  · rw [update_containers, h2]; rfl
  · rw [hr1, hfm1]
    exact (hperm.filterMap procOpt).map _

/-- Witness: the two enumeration orders of two concrete running containers
both extract successfully, with permuted results. -/
theorem extraction_order_independent_witness :
    ∃ r1 r2, update_containers [c8a_cont, c8b_cont] = .ok r1 ∧
      update_containers [c8b_cont, c8a_cont] = .ok r2 ∧
      r1.containers.Perm r2.containers := by
  obtain ⟨r1, h1⟩ : ∃ r1, update_containers [c8a_cont, c8b_cont] = .ok r1 := ⟨_, rfl⟩
  obtain ⟨r2, h2, hp⟩ :=
    extraction_order_independent [c8a_cont, c8b_cont] [c8b_cont, c8a_cont] r1
      (List.Perm.swap c8b_cont c8a_cont []) h1
  exact ⟨r1, r2, h1, h2, hp⟩

end DGB

namespace DGB

namespace Build

/-- The fallback value of `getLastD` is irrelevant on non-empty lists. -/
theorem getLastD_irrel {α : Type} (x : α) (xs : List α) (a b : α) :
    (x :: xs).getLastD a = (x :: xs).getLastD b := rfl

/-- Looking a key up after a `defaultdict(list)` append: the appended
element lands at the end of exactly its key's group. -/
theorem lookup_ddAppend (m : List (String × List ContainerInfos)) (k0 : String)
    (c0 : ContainerInfos) (k : String) :
    lookupGroup (ddAppend m k0 c0) k =
      if k = k0 then lookupGroup m k ++ [c0] else lookupGroup m k := by
  induction m with
  | nil =>
    by_cases h : k = k0
    · subst h
      simp [ddAppend, lookupGroup, List.find?]
    · have h' : ¬ (k0 == k) = true := by simpa using fun e => h e.symm
      simp [ddAppend, lookupGroup, List.find?, h, h']
  | cons p rest ih =>
    obtain ⟨k', v⟩ := p
    by_cases h1 : k' = k0
    · subst h1
      simp only [ddAppend, if_pos rfl]
      by_cases h2 : k = k'
      · subst h2
        simp [lookupGroup, List.find?]
      · have h2' : ¬ (k' == k) = true := by simpa using fun e => h2 e.symm
        have hneq : ¬ k = k' := h2
        simp [lookupGroup, List.find?, h2', if_neg hneq]
    · simp only [ddAppend, if_neg h1]
      by_cases h2 : k = k'
      · subst h2
        have hk0 : ¬ k = k0 := fun e => h1 (e.symm.trans rfl).symm
        simp [lookupGroup, List.find?, if_neg hk0]
      · have h2' : ¬ (k' == k) = true := by simpa using fun e => h2 e.symm
        have lhs : lookupGroup ((k', v) :: ddAppend rest k0 c0) k
            = lookupGroup (ddAppend rest k0 c0) k := by
          simp [lookupGroup, List.find?, h2']
        have rhs : lookupGroup ((k', v) :: rest) k = lookupGroup rest k := by
          simp [lookupGroup, List.find?, h2']
        rw [lhs, rhs, ih]

/-- Membership in the clusters produced by the network grouping: a container
appears in the cluster of network `k` exactly when `k` is its (single)
`network` member. -/
theorem mem_group_iff (running : List ContainerInfos) (k : String)
    (bc : ContainerInfos) :
    bc ∈ lookupGroup (group_by_network running) k ↔
      (k = bc.network ∧ bc ∈ running) := by
  have hnil : ∀ k', lookupGroup ([] : List (String × List ContainerInfos)) k' = [] := by
    intro k'; simp [lookupGroup, List.find?]
  suffices haux : ∀ (l : List ContainerInfos) (m : List (String × List ContainerInfos)),
      bc ∈ lookupGroup (l.foldl (fun m c => ddAppend m c.network c) m) k ↔
        (bc ∈ lookupGroup m k ∨ (k = bc.network ∧ bc ∈ l)) by
    rw [group_by_network, haux running []]
    simp [hnil]
  intro l
  induction l with
  | nil => intro m; simp
  | cons c rest ih =>
    intro m
    rw [List.foldl_cons, ih (ddAppend m c.network c), lookup_ddAppend]
    by_cases h : k = c.network
    · rw [if_pos h]
      constructor
      · rintro (hm | ⟨hk', hr⟩)
        · rcases List.mem_append.mp hm with hm' | hc
          · exact Or.inl hm'
          · rcases List.mem_singleton.mp hc with rfl
            exact Or.inr ⟨h, List.mem_cons_self _ _⟩
        · exact Or.inr ⟨hk', List.mem_cons_of_mem _ hr⟩
      · rintro (hm | ⟨hk', hr⟩)
        · exact Or.inl (List.mem_append_left _ hm)
        · rcases List.mem_cons.mp hr with rfl | hr'
          · exact Or.inl (List.mem_append_right _ (List.mem_singleton.mpr rfl))
          · exact Or.inr ⟨hk', hr'⟩
    · rw [if_neg h]
      constructor
      · rintro (hm | ⟨hk', hr⟩)
        · exact Or.inl hm
        · exact Or.inr ⟨hk', List.mem_cons_of_mem _ hr⟩
      · rintro (hm | ⟨hk', hr⟩)
        · exact Or.inl hm
        · rcases List.mem_cons.mp hr with rfl | hr'
          · exact absurd hk' h
          · exact Or.inr ⟨hk', hr'⟩

/-- The `network` member after the networks loop is the last-enumerated
network name. -/
theorem foldl_netStepB_fst (nets : List (String × Option (List String))) :
    ∀ acc : String × Finset String, nets ≠ [] →
      (nets.foldl netStepB acc).1 = (nets.map Prod.fst).getLastD "" := by
  induction nets with
  | nil => intro acc h; exact absurd rfl h
  | cons p rest ih =>
    intro acc _
    cases hr : rest with
    | nil => subst hr; rfl
    | cons q tl =>
      subst hr
      rw [List.foldl_cons, ih (netStepB acc p) (by simp)]
      rfl

end Build

/-- C2 counterexample: a running container attached to the networks
enumerated as (custom, default) is assigned network `default` — the last
one — so it is placed in the `default` cluster, not in `custom` as the
claim's selection policy (drop the low-priority `default` first) demands. -/
theorem network_choice_not_custom :
    (Build.get_container [] c2_cont).map (fun p => p.1.network) = some "default" ∧
    ("default" : String) ≠ "custom" := ⟨rfl, by decide⟩

/-- C2 amended: a container attached to several networks is placed in
exactly one network cluster, namely that of the LAST network in enumeration
order (no configured default/low-priority network is dropped first), and a
warning naming the chosen network is emitted whenever more than one network
is attached. -/
theorem network_selection_last (exclude : List String) (cont : DockerContainer)
    (bc : Build.ContainerInfos) (ws : List Warning)
    (h : Build.get_container exclude cont = some (bc, ws))
    (hne : cont.networks ≠ []) :
    bc.network = (cont.networks.map Prod.fst).getLastD "" ∧
    (1 < cont.networks.length → Warning.multipleNetworks cont.name bc.network ∈ ws) ∧
    (∀ running k, bc ∈ Build.lookupGroup (Build.group_by_network running) k ↔
        (k = bc.network ∧ bc ∈ running)) := by
  simp only [Build.get_container] at h
  by_cases hc : (cont.status == "running" && !(exclude.contains cont.name) &&
      decide (0 < cont.tags.length)) = true
  · rw [if_pos hc] at h
    injection h with h'
    rw [Prod.mk.injEq] at h'
    obtain ⟨hx, hw⟩ := h'
    subst hx
    subst hw
    refine ⟨?_, ?_, ?_⟩
    · exact Build.foldl_netStepB_fst cont.networks ("", ∅) hne
    · intro hlen
      refine List.mem_append_right _ ?_
      rw [if_pos hlen]
      exact List.mem_singleton.mpr rfl
    · intro running k
      exact Build.mem_group_iff running k _
  · rw [if_neg hc] at h
    exact absurd h (by simp)

/-- Witness: the container attached to (custom, default) is extracted, gets
network `default`, carries the multiple-networks warning naming `default`,
and is grouped exactly in the `default` cluster. -/
theorem network_selection_last_witness :
    ∃ bc ws, Build.get_container [] c2_cont = some (bc, ws) ∧
      bc.network = "default" ∧
      Warning.multipleNetworks "multi" "default" ∈ ws ∧
      bc ∈ Build.lookupGroup (Build.group_by_network [bc]) "default" := by
  obtain ⟨bc, ws, h⟩ : ∃ bc ws, Build.get_container [] c2_cont = some (bc, ws) :=
    ⟨_, _, rfl⟩
  obtain ⟨hnet, hws, hgrp⟩ := network_selection_last [] c2_cont bc ws h (by decide)
  have hnet' : bc.network = "default" := hnet.trans rfl
  refine ⟨bc, ws, h, hnet', ?_, ?_⟩
  · have hmem := hws (by decide)
    rw [hnet'] at hmem
    exact hmem
  · exact (hgrp [bc] "default").mpr ⟨hnet'.symm, List.mem_singleton.mpr rfl⟩

end DGB

namespace DGB

namespace Build

theorem splitFirst_no (c : Char) :
    ∀ a : List Char, c ∉ a → splitFirst c a = (a, none) := by
  intro a
  induction a with
  | nil => intro _; rfl
  | cons x xs ih =>
    intro h
    have hx : ¬ x = c := fun e => h (e ▸ List.mem_cons_self x xs)
    have hxs : c ∉ xs := fun hm => h (List.mem_cons_of_mem _ hm)
    rw [splitFirst, if_neg hx, ih hxs]

theorem splitFirst_yes (c : Char) :
    ∀ (a b : List Char), c ∉ a → splitFirst c (a ++ c :: b) = (a, some b) := by
  intro a
  induction a with
  | nil => intro b _; simp [splitFirst]
  | cons x xs ih =>
    intro b h
    have hx : ¬ x = c := fun e => h (e ▸ List.mem_cons_self x xs)
    have hxs : c ∉ xs := fun hm => h (List.mem_cons_of_mem _ hm)
    rw [List.cons_append, splitFirst, if_neg hx, ih b hxs]

theorem splitLast_no (c : Char) :
    ∀ h : List Char, c ∉ h → splitLast c h = none := by
  intro l
  induction l with
  | nil => intro _; rfl
  | cons x xs ih =>
    intro h
    have hx : ¬ x = c := fun e => h (e ▸ List.mem_cons_self x xs)
    have hxs : c ∉ xs := fun hm => h (List.mem_cons_of_mem _ hm)
    rw [splitLast, ih hxs, if_neg hx]

theorem splitLast_yes (c : Char) :
    ∀ (n h : List Char), c ∉ h → splitLast c (n ++ c :: h) = some (n, h) := by
  intro n
  induction n with
  | nil =>
    intro h hh
    rw [List.nil_append, splitLast, splitLast_no c h hh, if_pos rfl]
  | cons x xs ih =>
    intro h hh
    rw [List.cons_append, splitLast, ih h hh]

/-- Decoding inverts encoding on the collision-free domain: names without
colons, hosts without colons or underscores. -/
theorem decodeName_encodeName (n h : List Char) (s : Option (List Char))
    (hn : ':' ∉ n) (hu : '_' ∉ h) (hc : ':' ∉ h) :
    decodeName (encodeName n h s) = some (n, h, s) := by
  have hnc : ':' ∉ n ++ '_' :: h := by
    intro hmem
    rcases List.mem_append.mp hmem with h1 | h2
    · exact hn h1
    · rcases List.mem_cons.mp h2 with he | h3
      · exact absurd he (by decide)
      · exact hc h3
  cases s with
  | none =>
    have henc : encodeName n h none = n ++ '_' :: h := by
      show n ++ '_' :: (h ++ []) = n ++ '_' :: h
      simp
    rw [henc]
    simp only [decodeName, splitFirst_no ':' _ hnc, splitLast_yes '_' n h hu]
    rfl
  | some t =>
    have henc : encodeName n h (some t) = (n ++ '_' :: h) ++ ':' :: t := by
      show n ++ '_' :: (h ++ ':' :: t) = (n ++ '_' :: h) ++ ':' :: t
      simp
    rw [henc]
    simp only [decodeName, splitFirst_yes ':' _ t hnc, splitLast_yes '_' n h hu]
    rfl

theorem string_data_append (a b : String) : (a ++ b).data = a.data ++ b.data := rfl

theorem string_ext {a b : String} (h : a.data = b.data) : a = b := by
  cases a; cases b; exact congrArg String.mk h

/-- The characters of a `node_name` identifier are its `encodeName` form. -/
theorem node_name_data (host nm : String) (s : Option String) :
    (node_name host nm s).data = encodeName nm.data host.data (s.map String.data) := by
  have hu : ("_" : String).data = ['_'] := rfl
  have hcn : (":" : String).data = [':'] := rfl
  cases s with
  | none =>
    show ((nm ++ "_" ++ host)).data = nm.data ++ '_' :: (host.data ++ [])
    rw [string_data_append, string_data_append, hu]
    simp
  | some t =>
    show ((nm ++ "_" ++ host ++ ":" ++ t)).data
        = nm.data ++ '_' :: (host.data ++ ':' :: t.data)
    rw [string_data_append, string_data_append, string_data_append,
      string_data_append, hu, hcn]
    simp

/-- C9 amended: `node_name` is injective over (host, natural name, subname)
triples provided the host identifier contains neither `_` nor `:` and the
natural name contains no `:`; in particular identifiers built for two
DISTINCT such hosts never collide.  (Without these restrictions collisions
exist, e.g. name `a_b` on host `c` versus name `a` on host `b_c`.) -/
theorem node_name_injective (h1 n1 h2 n2 : String) (s1 s2 : Option String)
    (hn1 : ':' ∉ n1.data) (hu1 : '_' ∉ h1.data) (hc1 : ':' ∉ h1.data)
    (hn2 : ':' ∉ n2.data) (hu2 : '_' ∉ h2.data) (hc2 : ':' ∉ h2.data)
    (heq : node_name h1 n1 s1 = node_name h2 n2 s2) :
    h1 = h2 ∧ n1 = n2 ∧ s1 = s2 := by
  have hd : (node_name h1 n1 s1).data = (node_name h2 n2 s2).data := by rw [heq]
  rw [node_name_data, node_name_data] at hd
  have hdec := decodeName_encodeName n1.data h1.data (s1.map String.data) hn1 hu1 hc1
  rw [hd, decodeName_encodeName n2.data h2.data (s2.map String.data) hn2 hu2 hc2]
    at hdec
  injection hdec with hdec
  simp only [Prod.mk.injEq] at hdec
  obtain ⟨e1, e2, e3⟩ := hdec
  refine ⟨string_ext e2.symm, string_ext e1.symm, ?_⟩
  cases s1 with
  | none => cases s2 with
    | none => rfl
    | some t2 => exact Option.noConfusion e3
  | some t1 => cases s2 with
    | none => exact Option.noConfusion e3
    | some t2 =>
      have e3' : t2.data = t1.data := Option.some.inj e3
      exact congrArg some (string_ext e3').symm

end Build

/-- C9 counterexample: with underscores allowed in natural names, two
triples with DISTINCT host identifiers produce the same node identifier:
name `a_b` on host `c` and name `a` on host `b_c` both give `a_b_c`. -/
theorem node_name_cross_host_collision :
    Build.node_name "c" "a_b" none = Build.node_name "b_c" "a" none ∧
    ("c" : String) ≠ "b_c" := ⟨rfl, by decide⟩

/-- Witness: two identifiers built for the distinct well-formed hosts `h1`
and `h2` from the same natural name never coincide. -/
theorem node_name_injective_witness :
    Build.node_name "h1" "web" none ≠ Build.node_name "h2" "web" none := by
  intro heq
  obtain ⟨hh, -, -⟩ := Build.node_name_injective "h1" "web" "h2" "web" none none
    (by decide) (by decide) (by decide) (by decide) (by decide) (by decide) heq
  exact absurd hh (by decide)

end DGB

namespace DGB

/-- C4: the mount attachment step produces a bipartite
sources—mount-points—containers structure: the source-node list and the
mount-point-node list are duplicate-free, every mount source receives
exactly one node (even when mounted into several containers), and every
(source, destination, container) mount yields one edge from its
(destination, container) mount-point node to the owning container and one to
its source node. -/
theorem mount_graph_bipartite (cs : List ContainerInfos) :
    (source_nodes cs).Nodup ∧ (mount_point_nodes cs).Nodup ∧
    (mount_edges_source cs).Nodup ∧
    ∀ s d c, (s, d, c) ∈ mountTriples cs →
      (source_nodes cs).count s = 1 ∧
      (d, c) ∈ mount_point_nodes cs ∧
      ((d, c), c) ∈ mount_edges_container cs ∧
      ((d, c), s) ∈ mount_edges_source cs := by
  refine ⟨List.nodup_dedup _, List.nodup_dedup _, List.nodup_dedup _, ?_⟩
  intro s d c hmem
  have hs : s ∈ source_nodes cs := by
    rw [source_nodes, List.mem_dedup]
    exact List.mem_map_of_mem _ hmem
  have hmp : (d, c) ∈ mount_point_nodes cs := by
    rw [mount_point_nodes, List.mem_dedup]
    exact List.mem_map_of_mem _ hmem
  refine ⟨?_, hmp, ?_, ?_⟩
  · exact List.count_eq_one_of_mem (List.nodup_dedup _) hs
  · rw [mount_edges_container]
    exact List.mem_map_of_mem _ hmp
  · rw [mount_edges_source, List.mem_dedup]
    exact List.mem_map_of_mem _ hmem

/-- Witness: two containers `a`, `b` both mounting `/srv/data` yield a
single `/srv/data` source node (count one), a mount-point node for
(`/da`, `a`), and that node's two edges. -/
theorem mount_graph_bipartite_witness :
    ("/srv/data", "/da", "a") ∈ mountTriples [c4a_info, c4b_info] ∧
    (source_nodes [c4a_info, c4b_info]).count "/srv/data" = 1 ∧
    ("/da", "a") ∈ mount_point_nodes [c4a_info, c4b_info] ∧
    (("/da", "a"), "a") ∈ mount_edges_container [c4a_info, c4b_info] ∧
    (("/da", "a"), "/srv/data") ∈ mount_edges_source [c4a_info, c4b_info] := by
  have hmem : ("/srv/data", "/da", "a") ∈ mountTriples [c4a_info, c4b_info] := by
    decide
  obtain ⟨h1, h2, h3, h4⟩ :=
    (mount_graph_bipartite [c4a_info, c4b_info]).2.2.2 "/srv/data" "/da" "a" hmem
  exact ⟨hmem, h1, h2, h3, h4⟩

end DGB
